import Mathlib

/-!
# Concurrent-Web-Scraper: the Fetch retry loop and the Analyzer aggregate

A shallow embedding of `scraper.go` (`Scraper.Fetch`) and `analyzer.go`
(`NewAnalyzer`, `Analyzer.Process`).

* Go strings are Lean strings (UTF-8 text); `strings.HasPrefix` and
  `strings.TrimSpace` work on the character list.
* The collaborators of `Fetch` that live outside the repository (net/url,
  net/http, goquery) are the fields of a `World`: whether `url.Parse` accepts
  a string, and what the n-th call of `s.Client.Do` returns.
* A run of `Fetch` is its outcome (a returned `ScrapeResult`, or a Go run-time
  panic) together with the trace of requests issued and sleeps performed.
* Go's `int` counter `TotalCount` is an `Int`; it is incremented once per
  processed result and cannot reach 2^63 in a run, so no wrap-around is
  modelled.
-/

namespace Scraper

/-! ## Package strings -/

/-- Go `strings.HasPrefix(s, pre)`. -/
def HasPrefix (s pre : String) : Bool :=
  pre.data.isPrefixOf s.data

/-- Go `unicode.IsSpace`: the Unicode White_Space code points. -/
def IsSpace (c : Char) : Bool :=
  let n := c.toNat
  (9 ≤ n && n ≤ 13) || n = 32 || n = 133 || n = 160 || n = 5760 ||
  (8192 ≤ n && n ≤ 8202) || n = 8232 || n = 8233 || n = 8239 || n = 8287 || n = 12288

/-- Go `strings.TrimSpace`: drop leading and trailing white space. -/
def TrimSpace (s : String) : String :=
  ⟨((s.data.dropWhile IsSpace).reverse.dropWhile IsSpace).reverse⟩

/-! ## Data model of scraper.go -/

/-- The struct `ScrapeResult` of scraper.go. A nil slice is the empty list. -/
structure ScrapeResult where
  URL : String
  Status : Int
  IsActive : Bool
  PageTitle : String
  H1 : String
  AllHeaders : List String
  Description : String
deriving DecidableEq, Repr

/-- The part of `context.Context` the code could observe: whether it is cancelled. -/
structure Context where
  cancelled : Bool
deriving DecidableEq, Repr

/-- An `*http.Request` as built by `http.NewRequestWithContext` and `req.Header.Set`. -/
structure Request where
  ctx : Context
  Method : String
  URL : String
  Header : List (String × String)
deriving DecidableEq, Repr

/-- Which of the two selected heading elements a node is. -/
inductive HeadingTag where
  | h1
  | h2
deriving DecidableEq, Repr

/-- What the four goquery selections of `Fetch` can see of a parsed document:
the `h1`/`h2` elements in document order with their `Text()`, the `Text()` of
the `title` elements, and for each `meta[name=description]` element its
`content` attribute when it has one. -/
structure Document where
  headings : List (HeadingTag × String)
  titles : List String
  metaDescriptions : List (Option String)
deriving DecidableEq, Repr

/-- A response body: either it cannot be read to the end, or it is HTML that
`html.Parse` turns into a document (malformed markup included). -/
inductive Body where
  | readError
  | html (doc : Document)
deriving DecidableEq, Repr

/-- An `*http.Response`, as far as `Fetch` reads it. -/
structure Response where
  StatusCode : Int
  Body : Body
deriving DecidableEq, Repr

/-- The pair `(resp, err)` returned by `s.Client.Do(req)`. -/
inductive DoResult where
  | failure
  | response (resp : Response)
deriving DecidableEq, Repr

/-- The collaborators of `Fetch` outside the repository. -/
structure World where
  /-- Whether `net/url.Parse` accepts the string. -/
  urlParse : String → Bool
  /-- What `s.Client.Do(req)` returns in loop iteration `i`. -/
  ClientDo : Nat → Request → DoResult

/-- A Go run-time panic. -/
inductive GoPanic where
  | nilPointerDereference
deriving DecidableEq, Repr

/-- An observable step of `Fetch`. -/
inductive Event where
  /-- The call `s.Client.Do(req)` of loop iteration `i`. -/
  | request (i : Nat) (req : Request)
  /-- The call `time.Sleep(d)`, `d` in nanoseconds. -/
  | sleep (d : Nat)
deriving DecidableEq, Repr

/-- One run of `Fetch`: how it ended and what it did on the way. -/
structure FetchRun where
  outcome : Except GoPanic ScrapeResult
  trace : List Event

/-! ## Library calls made by Fetch -/

/-- Go `http.NewRequestWithContext(ctx, method, url, nil)` for a non-nil context
and a valid method: `none` stands for `(nil, err)`, returned when `url.Parse`
rejects the URL. -/
def NewRequestWithContext (w : World) (ctx : Context) (method url : String) : Option Request :=
  if w.urlParse url then some { ctx := ctx, Method := method, URL := url, Header := [] }
  else none

/-- Go `Header.Set`: replace the values stored under the key. -/
def HeaderSet (h : List (String × String)) (key value : String) : List (String × String) :=
  (key, value) :: h.filter (fun kv => kv.1 ≠ key)

/-- Go `goquery.NewDocumentFromReader(resp.Body)`: `none` stands for `(nil, err)`. -/
def NewDocumentFromReader (b : Body) : Option Document :=
  match b with
  | Body.readError => none
  | Body.html doc => some doc

/-- The loop `doc.Find("h1, h2").Each(...)`: the trimmed, non-empty heading texts. -/
def subHeaders (doc : Document) : List String :=
  (doc.headings.map (fun h => TrimSpace h.2)).filter (fun text => text ≠ "")

/-- Go `doc.Find("title").First().Text()`. -/
def titleText (doc : Document) : String :=
  doc.titles.headD ""

/-- Go `doc.Find("h1").First().Text()`. -/
def h1Text (doc : Document) : String :=
  ((doc.headings.filter (fun h => h.1 = HeadingTag.h1)).map (fun h => h.2)).headD ""

/-- Go `doc.Find("meta[name=description]").Attr("content")`, the value only. -/
def descriptionAttr (doc : Document) : String :=
  match doc.metaDescriptions with
  | [] => ""
  | a :: _ => a.getD ""

/-- The constant `time.Second`, in nanoseconds. -/
def Second : Nat := 1000000000

/-- The value `time.Duration(math.Pow(2, float64(i))) * time.Second`; the power
is exact for the indices the loop uses. -/
def waitTime (i : Nat) : Nat :=
  2 ^ i * Second

/-- The User-Agent string of scraper.go. -/
def userAgent : String :=
  "Mozilla/5.0 (Windows NT 10.0; Win64; x64) Chrome/121.0.0.0"

/-! ## Scraper.Fetch -/

/-- The local `fullURL` of `Fetch`. -/
def fullURL (url : String) : String :=
  if !HasPrefix url "http" then "https://" ++ url else url

/-- The request of one loop iteration, once `NewRequestWithContext` succeeded. -/
def withUserAgent (req : Request) : Request :=
  { req with Header := HeaderSet req.Header "User-Agent" userAgent }

/-- The test `err == nil && resp.StatusCode == 200`. -/
def isOK (r : DoResult) : Option Response :=
  match r with
  | DoResult.failure => none
  | DoResult.response resp => if resp.StatusCode = 200 then some resp else none

/-- The sleep at the end of a failed iteration: `if i < 2 { time.Sleep(waitTime) }`. -/
def backoff (i : Nat) : List Event :=
  if i < 2 then [Event.sleep (waitTime i)] else []

/-- The result built after the loop: `ScrapeResult{URL: fullURL, IsActive: false}`. -/
def failureResult (u : String) : ScrapeResult :=
  { URL := u, Status := 0, IsActive := false, PageTitle := "", H1 := "",
    AllHeaders := [], Description := "" }

/-- The result built in the success branch. -/
def successResult (u : String) (resp : Response) (doc : Document) : ScrapeResult :=
  { URL := u, Status := resp.StatusCode, IsActive := true,
    PageTitle := TrimSpace (titleText doc), H1 := TrimSpace (h1Text doc),
    AllHeaders := subHeaders doc, Description := TrimSpace (descriptionAttr doc) }

/-- The loop `for i := 0; i < 3; i++` of `Fetch`, entered at index `i` with
`left` iterations to go, followed by the final `return`. -/
def fetchLoop (w : World) (ctx : Context) (u : String) : Nat → Nat → FetchRun
  | 0, _ => { outcome := Except.ok (failureResult u), trace := [] }
  | left + 1, i =>
    match NewRequestWithContext w ctx "GET" u with
    | none =>
      -- `req.Header.Set` on the nil request
      { outcome := Except.error GoPanic.nilPointerDereference, trace := [] }
    | some req0 =>
      let req := withUserAgent req0
      match isOK (w.ClientDo i req) with
      | some resp =>
        match NewDocumentFromReader resp.Body with
        | none =>
          -- `doc.Find` on the nil document
          { outcome := Except.error GoPanic.nilPointerDereference,
            trace := [Event.request i req] }
        | some doc =>
          { outcome := Except.ok (successResult u resp doc), trace := [Event.request i req] }
      | none =>
        let rest := fetchLoop w ctx u left (i + 1)
        { outcome := rest.outcome, trace := Event.request i req :: (backoff i ++ rest.trace) }

/-- The method `(s *Scraper) Fetch(ctx, url)`. -/
def Fetch (w : World) (ctx : Context) (url : String) : FetchRun :=
  fetchLoop w ctx (fullURL url) 3 0

/-- The request every iteration of `Fetch` hands to `s.Client.Do` when `url.Parse`
accepts the URL. -/
def requestFor (ctx : Context) (u : String) : Request :=
  withUserAgent { ctx := ctx, Method := "GET", URL := u, Header := [] }

/-! ## analyzer.go -/

/-- The struct `SiteInfo` of analyzer.go. -/
structure SiteInfo where
  Title : String
  H1 : String
  AllHeaders : List String
  Description : String
deriving DecidableEq, Repr

/-- Go `m[k] = v` on a `map[string]SiteInfo`, kept as a list of entries: an
existing entry for the key is overwritten in place, otherwise one is added. -/
def mapSet : List (String × SiteInfo) → String → SiteInfo → List (String × SiteInfo)
  | [], k, v => [(k, v)]
  | (k0, v0) :: m, k, v => if k0 = k then (k, v) :: m else (k0, v0) :: mapSet m k v

/-- Go `v, ok := m[k]`. -/
def mapGet : List (String × SiteInfo) → String → Option SiteInfo
  | [], _ => none
  | (k0, v0) :: m, k => if k0 = k then some v0 else mapGet m k

/-- The keys of a map. -/
def mapKeys (m : List (String × SiteInfo)) : List String :=
  m.map Prod.fst

/-- Go `len(m)`. -/
def mapLen (m : List (String × SiteInfo)) : Nat :=
  m.length

/-- The struct `Analyzer` of analyzer.go. -/
structure Analyzer where
  Results : List (String × SiteInfo)
  TotalCount : Int
deriving DecidableEq, Repr

/-- The function `NewAnalyzer()`: an empty map and the zero counter. -/
def NewAnalyzer : Analyzer :=
  { Results := [], TotalCount := 0 }

/-- The `SiteInfo` literal that `Process` stores for a result. -/
def siteInfoOf (result : ScrapeResult) : SiteInfo :=
  { Title := result.PageTitle, H1 := result.H1, AllHeaders := result.AllHeaders,
    Description := result.Description }

/-- The method `(a *Analyzer) Process(result)`: the analyzer after the call and
the message handed to `log.Printf`. -/
def Process (a : Analyzer) (result : ScrapeResult) : Analyzer × String :=
  if result.IsActive then
    ({ TotalCount := a.TotalCount + 1,
       Results := mapSet a.Results result.URL (siteInfoOf result) },
     "Processed result for [" ++ result.URL ++ "] | H1: " ++ result.H1 ++ "\n")
  else
    (a, "Failure: " ++ result.URL ++ " was unreachable after 3 attempts\n")

/-- The loop `for res := range results { analyst.Process(res) }` of main.go on
the results drained from the channel, in arrival order. -/
def processAll (a : Analyzer) (rs : List ScrapeResult) : Analyzer :=
  rs.foldl (fun acc res => (Process acc res).1) a

/-! ## Concrete collaborators used to exercise the model -/

/-- The first check of `net/url.Parse`: an ASCII control byte makes it fail. -/
def hasControlChar (s : String) : Bool :=
  s.data.any (fun c => c.toNat < 32 || c.toNat = 127)

/-- A network in which every request fails in transport, with `url.Parse`
rejecting control characters. -/
def deadWorld : World :=
  { urlParse := fun s => !hasControlChar s, ClientDo := fun _ _ => DoResult.failure }

/-- The page of the spec's concrete scenario. -/
def samplePage : Document :=
  { headings := [(HeadingTag.h1, "H"), (HeadingTag.h2, "S")], titles := ["T"],
    metaDescriptions := [some "D"] }

/-- A server that answers every request with the given status and the sample page. -/
def statusWorld (status : Int) : World :=
  { urlParse := fun s => !hasControlChar s,
    ClientDo := fun _ _ => DoResult.response { StatusCode := status, Body := Body.html samplePage } }

/-- A server that answers 200 and then breaks the connection while the body is read. -/
def brokenBodyWorld : World :=
  { urlParse := fun s => !hasControlChar s,
    ClientDo := fun _ _ => DoResult.response { StatusCode := 200, Body := Body.readError } }

/-- An active result for the sample page under the given URL and title. -/
def sampleResult (u title : String) : ScrapeResult :=
  { URL := u, Status := 200, IsActive := true, PageTitle := title, H1 := "H",
    AllHeaders := ["H", "S"], Description := "D" }

/-! ## Facts about the library calls -/

theorem isOK_eq_some_iff (d : DoResult) (resp : Response) :
    isOK d = some resp ↔ d = DoResult.response resp ∧ resp.StatusCode = 200 := by
  cases d with
  | failure => simp [isOK]
  | response r =>
    by_cases h : r.StatusCode = 200
    · simp only [isOK, h, if_true, Option.some.injEq, DoResult.response.injEq]
      constructor
      · intro e
        subst e
        exact ⟨rfl, h⟩
      · intro e
        exact e.1
    · simp only [isOK, h, if_false, DoResult.response.injEq]
      constructor
      · intro e
        cases e
      · intro e
        rcases e with ⟨e1, e2⟩
        subst e1
        exact absurd e2 h

theorem newRequest_of_parse (w : World) (ctx : Context) (u : String)
    (h : w.urlParse u = true) :
    NewRequestWithContext w ctx "GET" u
      = some { ctx := ctx, Method := "GET", URL := u, Header := [] } := by
  simp [NewRequestWithContext, h]

theorem newRequest_of_reject (w : World) (ctx : Context) (u : String)
    (h : w.urlParse u = false) :
    NewRequestWithContext w ctx "GET" u = none := by
  simp [NewRequestWithContext, h]

/-! ## The retry loop -/

theorem fetchLoop_zero (w : World) (ctx : Context) (u : String) (i : Nat) :
    fetchLoop w ctx u 0 i = { outcome := Except.ok (failureResult u), trace := [] } := rfl

/-- One iteration of the loop when the request cannot be built. -/
theorem fetchLoop_reject (w : World) (ctx : Context) (u : String) (left i : Nat)
    (h : w.urlParse u = false) :
    fetchLoop w ctx u (left + 1) i
      = { outcome := Except.error GoPanic.nilPointerDereference, trace := [] } := by
  simp [fetchLoop, newRequest_of_reject w ctx u h]

/-- One iteration of the loop that does not see a 200 response. -/
theorem fetchLoop_retry (w : World) (ctx : Context) (u : String) (left i : Nat)
    (hp : w.urlParse u = true) (hf : isOK (w.ClientDo i (requestFor ctx u)) = none) :
    fetchLoop w ctx u (left + 1) i
      = { outcome := (fetchLoop w ctx u left (i + 1)).outcome,
          trace := Event.request i (requestFor ctx u)
            :: (backoff i ++ (fetchLoop w ctx u left (i + 1)).trace) } := by
  have hf2 : isOK (w.ClientDo i (withUserAgent
      { ctx := ctx, Method := "GET", URL := u, Header := [] })) = none := hf
  simp [fetchLoop, newRequest_of_parse w ctx u hp, hf2, requestFor]

/-- One iteration of the loop that sees a 200 response with a readable body. -/
theorem fetchLoop_success (w : World) (ctx : Context) (u : String) (left i : Nat)
    (resp : Response) (doc : Document)
    (hp : w.urlParse u = true) (hs : isOK (w.ClientDo i (requestFor ctx u)) = some resp)
    (hd : NewDocumentFromReader resp.Body = some doc) :
    fetchLoop w ctx u (left + 1) i
      = { outcome := Except.ok (successResult u resp doc),
          trace := [Event.request i (requestFor ctx u)] } := by
  have hs2 : isOK (w.ClientDo i (withUserAgent
      { ctx := ctx, Method := "GET", URL := u, Header := [] })) = some resp := hs
  simp [fetchLoop, newRequest_of_parse w ctx u hp, hs2, hd, requestFor]

/-- One iteration of the loop that sees a 200 response whose body cannot be read. -/
theorem fetchLoop_broken_body (w : World) (ctx : Context) (u : String) (left i : Nat)
    (resp : Response)
    (hp : w.urlParse u = true) (hs : isOK (w.ClientDo i (requestFor ctx u)) = some resp)
    (hd : NewDocumentFromReader resp.Body = none) :
    fetchLoop w ctx u (left + 1) i
      = { outcome := Except.error GoPanic.nilPointerDereference,
          trace := [Event.request i (requestFor ctx u)] } := by
  have hs2 : isOK (w.ClientDo i (withUserAgent
      { ctx := ctx, Method := "GET", URL := u, Header := [] })) = some resp := hs
  simp [fetchLoop, newRequest_of_parse w ctx u hp, hs2, hd, requestFor]

/-- Whatever the loop returns is the failure result or an active result. -/
theorem fetchLoop_returns (w : World) (ctx : Context) (u : String) (left : Nat) :
    ∀ (i : Nat) (r : ScrapeResult), (fetchLoop w ctx u left i).outcome = Except.ok r →
      r.URL = u ∧ (r = failureResult u ∨ r.IsActive = true) := by
  induction left with
  | zero =>
    intro i r h
    rw [fetchLoop_zero] at h
    injection h with h
    subst h
    exact ⟨rfl, Or.inl rfl⟩
  | succ left ih =>
    intro i r h
    cases hp : w.urlParse u with
    | false =>
      rw [fetchLoop_reject w ctx u left i hp] at h
      cases h
    | true =>
      cases hs : isOK (w.ClientDo i (requestFor ctx u)) with
      | none =>
        rw [fetchLoop_retry w ctx u left i hp hs] at h
        exact ih (i + 1) r h
      | some resp =>
        cases hd : NewDocumentFromReader resp.Body with
        | none =>
          rw [fetchLoop_broken_body w ctx u left i resp hp hs hd] at h
          cases h
        | some doc =>
          rw [fetchLoop_success w ctx u left i resp doc hp hs hd] at h
          injection h with h
          subst h
          exact ⟨rfl, Or.inr rfl⟩

/-- The loop returns an active result exactly when one of its iterations sees a
200 response. -/
theorem fetchLoop_active_iff (w : World) (ctx : Context) (u : String) (left : Nat) :
    ∀ (i : Nat) (r : ScrapeResult), (fetchLoop w ctx u left i).outcome = Except.ok r →
      (r.IsActive = true ↔
        ∃ j, i ≤ j ∧ j < i + left ∧ (isOK (w.ClientDo j (requestFor ctx u))).isSome = true) := by
  induction left with
  | zero =>
    intro i r h
    rw [fetchLoop_zero] at h
    injection h with h
    subst h
    constructor
    · intro e
      cases e
    · rintro ⟨j, h1, h2, _⟩
      omega
  | succ left ih =>
    intro i r h
    cases hp : w.urlParse u with
    | false =>
      rw [fetchLoop_reject w ctx u left i hp] at h
      cases h
    | true =>
      cases hs : isOK (w.ClientDo i (requestFor ctx u)) with
      | none =>
        rw [fetchLoop_retry w ctx u left i hp hs] at h
        rw [ih (i + 1) r h]
        constructor
        · rintro ⟨j, h1, h2, h3⟩
          exact ⟨j, by omega, by omega, h3⟩
        · rintro ⟨j, h1, h2, h3⟩
          have hne : j ≠ i := by
            intro e
            subst e
            rw [hs] at h3
            cases h3
          exact ⟨j, by omega, by omega, h3⟩
      | some resp =>
        cases hd : NewDocumentFromReader resp.Body with
        | none =>
          rw [fetchLoop_broken_body w ctx u left i resp hp hs hd] at h
          cases h
        | some doc =>
          rw [fetchLoop_success w ctx u left i resp doc hp hs hd] at h
          injection h with h
          subst h
          constructor
          · intro _
            exact ⟨i, le_refl i, by omega, by rw [hs]; rfl⟩
          · intro _
            rfl

/-! ## The Results map -/

theorem mapGet_mapSet (m : List (String × SiteInfo)) (k : String) (v : SiteInfo) (u : String) :
    mapGet (mapSet m k v) u = if k = u then some v else mapGet m u := by
  induction m with
  | nil => simp [mapSet, mapGet]
  | cons e m ih =>
    obtain ⟨k0, v0⟩ := e
    by_cases h0 : k0 = k
    · subst h0
      by_cases hu : k0 = u <;> simp [mapSet, mapGet, hu]
    · by_cases hu : k0 = u
      · subst hu
        have hne : ¬ k = k0 := fun e => h0 e.symm
        simp [mapSet, mapGet, h0, hne]
      · simp [mapSet, mapGet, h0, hu, ih]

theorem mem_mapKeys_iff (m : List (String × SiteInfo)) (u : String) :
    u ∈ mapKeys m ↔ (mapGet m u).isSome = true := by
  induction m with
  | nil => simp [mapKeys, mapGet]
  | cons e m ih =>
    obtain ⟨k0, v0⟩ := e
    by_cases hu : k0 = u
    · simp [mapKeys, mapGet, hu]
    · have hne : ¬ u = k0 := fun e => hu e.symm
      have ih2 : u ∈ List.map Prod.fst m ↔ (mapGet m u).isSome = true := ih
      simp [mapKeys, mapGet, hu, hne, ih2]

theorem mapKeys_mapSet (m : List (String × SiteInfo)) (k : String) (v : SiteInfo) :
    mapKeys (mapSet m k v) = if k ∈ mapKeys m then mapKeys m else mapKeys m ++ [k] := by
  induction m with
  | nil => simp [mapSet, mapKeys]
  | cons e m ih =>
    obtain ⟨k0, v0⟩ := e
    have ih2 : List.map Prod.fst (mapSet m k v)
        = if k ∈ List.map Prod.fst m then List.map Prod.fst m else List.map Prod.fst m ++ [k] := ih
    by_cases h0 : k0 = k
    · simp [mapSet, mapKeys, h0]
    · have hne : ¬ k = k0 := fun e => h0 e.symm
      by_cases hm : k ∈ List.map Prod.fst m
      · simp [mapSet, mapKeys, h0, hne, ih2, hm]
      · simp [mapSet, mapKeys, h0, hne, ih2, hm]

theorem mapKeys_mapSet_nodup (m : List (String × SiteInfo)) (k : String) (v : SiteInfo)
    (h : (mapKeys m).Nodup) : (mapKeys (mapSet m k v)).Nodup := by
  rw [mapKeys_mapSet]
  by_cases hm : k ∈ mapKeys m
  · simpa [hm] using h
  · simp only [hm, if_false]
    exact List.Nodup.append h (List.nodup_singleton k) (by simpa using hm)

theorem mapSet_mapSet (m : List (String × SiteInfo)) (k : String) (v v2 : SiteInfo) :
    mapSet (mapSet m k v) k v2 = mapSet m k v2 := by
  induction m with
  | nil => simp [mapSet]
  | cons e m ih =>
    obtain ⟨k0, v0⟩ := e
    by_cases h0 : k0 = k
    · simp [mapSet, h0]
    · simp [mapSet, h0, ih]

/-! ## Analyzer.Process -/

theorem Process_active (a : Analyzer) (r : ScrapeResult) (h : r.IsActive = true) :
    (Process a r).1 = { TotalCount := a.TotalCount + 1,
                        Results := mapSet a.Results r.URL (siteInfoOf r) } := by
  simp [Process, h]

theorem Process_inactive (a : Analyzer) (r : ScrapeResult) (h : r.IsActive = false) :
    (Process a r).1 = a := by
  simp [Process, h]

theorem processAll_nil (a : Analyzer) : processAll a [] = a := rfl

theorem processAll_cons (a : Analyzer) (r : ScrapeResult) (rs : List ScrapeResult) :
    processAll a (r :: rs) = processAll (Process a r).1 rs := rfl

theorem processAll_append_one (a : Analyzer) (rs : List ScrapeResult) (r : ScrapeResult) :
    processAll a (rs ++ [r]) = (Process (processAll a rs) r).1 := by
  simp [processAll, List.foldl_append]

/-- The counter after a run is the counter before it plus the number of active
results processed. -/
theorem processAll_count_from (rs : List ScrapeResult) :
    ∀ a : Analyzer,
      (processAll a rs).TotalCount = a.TotalCount + (rs.countP (fun r => r.IsActive) : Nat) := by
  induction rs with
  | nil =>
    intro a
    simp [processAll_nil]
  | cons r rs ih =>
    intro a
    rw [processAll_cons, ih]
    cases h : r.IsActive with
    | true =>
      rw [Process_active a r h, List.countP_cons_of_pos _ _ (by simpa using h)]
      push_cast
      ring
    | false =>
      rw [Process_inactive a r h, List.countP_cons_of_neg _ _ (by simpa using h)]

/-- Looking a URL up in the map after a run gives the entry of the last active
result with that URL. -/
theorem processAll_lookup (rs : List ScrapeResult) (u : String) :
    mapGet (processAll NewAnalyzer rs).Results u
      = (rs.reverse.find? (fun r => r.IsActive && r.URL == u)).map siteInfoOf := by
  induction rs using List.reverseRecOn with
  | nil => rfl
  | append_singleton rs r ih =>
    rw [processAll_append_one, List.reverse_append, List.reverse_singleton,
      List.singleton_append, List.find?_cons]
    cases h : r.IsActive with
    | false =>
      rw [Process_inactive _ r h, ih]
      simp
    | true =>
      rw [Process_active _ r h]
      simp only [mapGet_mapSet, Bool.true_and]
      by_cases hu : r.URL = u
      · simp [hu]
      · have hb : (r.URL == u) = false := by simpa using hu
        simp [hu, hb, ih]

/-- The keys of the map after a run are the URLs of the active results. -/
theorem processAll_keys (rs : List ScrapeResult) (u : String) :
    u ∈ mapKeys (processAll NewAnalyzer rs).Results
      ↔ ∃ r, r ∈ rs ∧ r.IsActive = true ∧ r.URL = u := by
  rw [mem_mapKeys_iff, processAll_lookup, Option.isSome_map', List.find?_isSome]
  constructor
  · rintro ⟨r, hr, hp⟩
    simp only [Bool.and_eq_true, beq_iff_eq] at hp
    exact ⟨r, List.mem_reverse.mp hr, hp.1, hp.2⟩
  · rintro ⟨r, hr, h1, h2⟩
    exact ⟨r, List.mem_reverse.mpr hr, by simp [h1, h2]⟩

/-- No URL has two entries in the map after a run. -/
theorem processAll_keys_nodup (rs : List ScrapeResult) :
    (mapKeys (processAll NewAnalyzer rs).Results).Nodup := by
  induction rs using List.reverseRecOn with
  | nil => simp [processAll_nil, NewAnalyzer, mapKeys]
  | append_singleton rs r ih =>
    rw [processAll_append_one]
    cases h : r.IsActive with
    | false =>
      rw [Process_inactive _ r h]
      exact ih
    | true =>
      rw [Process_active _ r h]
      exact mapKeys_mapSet_nodup _ _ _ ih

/-- The map after a run has one entry per distinct URL of an active result. -/
theorem processAll_len (rs : List ScrapeResult) :
    mapLen (processAll NewAnalyzer rs).Results
      = (((rs.filter (fun r => r.IsActive)).map (fun r => r.URL)).dedup).length := by
  have hperm : List.Perm (mapKeys (processAll NewAnalyzer rs).Results)
      (((rs.filter (fun r => r.IsActive)).map (fun r => r.URL)).dedup) := by
    rw [List.perm_ext_iff_of_nodup (processAll_keys_nodup rs) (List.nodup_dedup _)]
    intro u
    rw [processAll_keys, List.mem_dedup, List.mem_map]
    constructor
    · rintro ⟨r, hr, h1, h2⟩
      exact ⟨r, List.mem_filter.mpr ⟨hr, by simpa using h1⟩, h2⟩
    · rintro ⟨r, hr, h2⟩
      rcases List.mem_filter.mp hr with ⟨hr1, hr2⟩
      exact ⟨r, hr1, by simpa using hr2, h2⟩
  have hlen := hperm.length_eq
  simpa [mapKeys, mapLen] using hlen

/-! ## Scraper.Fetch -/

/-- When `url.Parse` rejects the normalised URL, `Fetch` panics in its first
iteration, before any request is issued. -/
theorem Fetch_of_reject (w : World) (ctx : Context) (url : String)
    (h : w.urlParse (fullURL url) = false) :
    Fetch w ctx url
      = { outcome := Except.error GoPanic.nilPointerDereference, trace := [] } :=
  fetchLoop_reject w ctx (fullURL url) 2 0 h

/-- Every result `Fetch` returns carries the local `fullURL`. -/
theorem Fetch_url (w : World) (ctx : Context) (url : String) (r : ScrapeResult)
    (h : (Fetch w ctx url).outcome = Except.ok r) : r.URL = fullURL url :=
  (fetchLoop_returns w ctx (fullURL url) 3 0 r h).1

/-- An input without the four letters `http` in front gets `https://` prepended;
any other input is kept as it is. -/
theorem fullURL_cases (url : String) :
    (HasPrefix url "http" = false → fullURL url = "https://" ++ url)
    ∧ (HasPrefix url "http" = true → fullURL url = url) := by
  constructor
  · intro h
    simp [fullURL, h]
  · intro h
    simp [fullURL, h]

/-- The requests and sleeps of a run of `Fetch` whose request can be built:
requests up to the first 200 response or the third attempt, one second of sleep
after a failed first attempt and two after a failed second one. -/
theorem Fetch_trace (w : World) (ctx : Context) (url : String)
    (hp : w.urlParse (fullURL url) = true) :
    (Fetch w ctx url).trace =
      if (isOK (w.ClientDo 0 (requestFor ctx (fullURL url)))).isSome then
        [Event.request 0 (requestFor ctx (fullURL url))]
      else if (isOK (w.ClientDo 1 (requestFor ctx (fullURL url)))).isSome then
        [Event.request 0 (requestFor ctx (fullURL url)), Event.sleep Second,
         Event.request 1 (requestFor ctx (fullURL url))]
      else
        [Event.request 0 (requestFor ctx (fullURL url)), Event.sleep Second,
         Event.request 1 (requestFor ctx (fullURL url)), Event.sleep (2 * Second),
         Event.request 2 (requestFor ctx (fullURL url))] := by
  have step : ∀ (left i : Nat) (resp : Response),
      isOK (w.ClientDo i (requestFor ctx (fullURL url))) = some resp →
      (fetchLoop w ctx (fullURL url) (left + 1) i).trace
        = [Event.request i (requestFor ctx (fullURL url))] := by
    intro left i resp hs
    cases hd : NewDocumentFromReader resp.Body with
    | none => rw [fetchLoop_broken_body w ctx _ left i resp hp hs hd]
    | some doc => rw [fetchLoop_success w ctx _ left i resp doc hp hs hd]
  unfold Fetch
  cases h0 : isOK (w.ClientDo 0 (requestFor ctx (fullURL url))) with
  | some resp => simp [step 2 0 resp h0]
  | none =>
    rw [fetchLoop_retry w ctx _ 2 0 hp h0]
    cases h1 : isOK (w.ClientDo 1 (requestFor ctx (fullURL url))) with
    | some resp => simp [step 1 1 resp h1, backoff, waitTime]
    | none =>
      rw [fetchLoop_retry w ctx _ 1 1 hp h1]
      cases h2 : isOK (w.ClientDo 2 (requestFor ctx (fullURL url))) with
      | some resp => simp [step 0 2 resp h2, backoff, waitTime]
      | none =>
        rw [fetchLoop_retry w ctx _ 0 2 hp h2, fetchLoop_zero]
        simp [backoff, waitTime]

/-- C1 (defect in the code): `Fetch` is not total. The request that
`http.NewRequestWithContext` could not build is dereferenced by
`req.Header.Set`, and the document that `goquery.NewDocumentFromReader` could
not build is dereferenced by `doc.Find`: for a URL with a line break, and for a
200 response whose body cannot be read, the run ends in a nil-pointer panic
and returns no `ScrapeResult`. -/
theorem Fetch_panics_on_discarded_errors :
    (Fetch deadWorld { cancelled := false } "example.com\n").outcome
        = Except.error GoPanic.nilPointerDereference
    ∧ (Fetch brokenBodyWorld { cancelled := false } "https://example.com").outcome
        = Except.error GoPanic.nilPointerDereference :=
  ⟨rfl, rfl⟩

/-- C2: a result returned by `Fetch` with `IsActive == false` has empty
`PageTitle`, `H1` and `Description` and no `AllHeaders`. -/
theorem Fetch_inactive_has_no_content (w : World) (ctx : Context) (url : String)
    (r : ScrapeResult) (h : (Fetch w ctx url).outcome = Except.ok r)
    (hi : r.IsActive = false) :
    r.PageTitle = "" ∧ r.H1 = "" ∧ r.Description = "" ∧ r.AllHeaders = [] := by
  rcases (fetchLoop_returns w ctx (fullURL url) 3 0 r h).2 with e | e
  · subst e
    exact ⟨rfl, rfl, rfl, rfl⟩
  · rw [hi] at e
    cases e

/-- C2 at a host that never answers: the returned result is inactive and empty. -/
theorem Fetch_inactive_has_no_content_witness :
    (Fetch deadWorld { cancelled := false } "badhost.invalid").outcome
        = Except.ok (failureResult "https://badhost.invalid")
    ∧ (failureResult "https://badhost.invalid").IsActive = false
    ∧ ((failureResult "https://badhost.invalid").PageTitle = ""
      ∧ (failureResult "https://badhost.invalid").H1 = ""
      ∧ (failureResult "https://badhost.invalid").Description = ""
      ∧ (failureResult "https://badhost.invalid").AllHeaders = []) :=
  ⟨rfl, rfl, Fetch_inactive_has_no_content deadWorld { cancelled := false }
    "badhost.invalid" (failureResult "https://badhost.invalid") rfl rfl⟩

/-- C3 (defect in the code): the scheme test looks for the four letters `http`
only, so the scheme-less host `httpbin.org` is kept as it is: the URL of the
returned result is `httpbin.org`, which begins with neither `http://` nor
`https://`, where the claim wants `https://httpbin.org`. -/
theorem Fetch_keeps_schemeless_httpbin :
    HasPrefix "httpbin.org" "http://" = false
    ∧ HasPrefix "httpbin.org" "https://" = false
    ∧ fullURL "httpbin.org" = "httpbin.org"
    ∧ (Fetch deadWorld { cancelled := false } "httpbin.org").outcome
        = Except.ok (failureResult "httpbin.org") :=
  ⟨rfl, rfl, by decide, rfl⟩

/-- C4 fails as stated: a server answering 204 to every attempt gives a 2xx
response within the budget, and `Fetch` returns an inactive result. -/
theorem Fetch_inactive_on_status_204 :
    (∃ i, i < 3 ∧ ∃ resp,
        (statusWorld 204).ClientDo i (requestFor { cancelled := false } "https://example.com")
          = DoResult.response resp
        ∧ 200 ≤ resp.StatusCode ∧ resp.StatusCode ≤ 299)
    ∧ ∃ r, (Fetch (statusWorld 204) { cancelled := false } "https://example.com").outcome
          = Except.ok r
        ∧ r.IsActive = false :=
  ⟨⟨0, by decide, { StatusCode := 204, Body := Body.html samplePage }, rfl, by decide,
      by decide⟩,
    ⟨failureResult "https://example.com", rfl, rfl⟩⟩

/-- C4 as amended: a result returned by `Fetch` has `IsActive == true` exactly
when one of the three attempts obtained a response with status code 200. -/
theorem Fetch_active_iff_status_200 (w : World) (ctx : Context) (url : String)
    (r : ScrapeResult) (h : (Fetch w ctx url).outcome = Except.ok r) :
    r.IsActive = true ↔
      ∃ i, i < 3 ∧ ∃ resp,
        w.ClientDo i (requestFor ctx (fullURL url)) = DoResult.response resp
        ∧ resp.StatusCode = 200 := by
  rw [fetchLoop_active_iff w ctx (fullURL url) 3 0 r h]
  constructor
  · rintro ⟨j, _, h2, h3⟩
    rcases Option.isSome_iff_exists.mp h3 with ⟨resp, hs⟩
    exact ⟨j, by omega, resp, (isOK_eq_some_iff _ resp).mp hs⟩
  · rintro ⟨j, h1, resp, h2⟩
    refine ⟨j, Nat.zero_le j, by omega, ?_⟩
    rw [(isOK_eq_some_iff _ resp).mpr h2]
    rfl

/-- C4 as amended, on the spec's scenario of a server that always answers 200. -/
theorem Fetch_active_iff_status_200_witness :
    (Fetch (statusWorld 200) { cancelled := false } "https://example.com").outcome
        = Except.ok (sampleResult "https://example.com" "T")
    ∧ ((sampleResult "https://example.com" "T").IsActive = true ↔
        ∃ i, i < 3 ∧ ∃ resp,
          (statusWorld 200).ClientDo i
              (requestFor { cancelled := false } (fullURL "https://example.com"))
            = DoResult.response resp
          ∧ resp.StatusCode = 200) :=
  ⟨rfl, Fetch_active_iff_status_200 (statusWorld 200) { cancelled := false }
    "https://example.com" (sampleResult "https://example.com" "T") rfl⟩

/-- C5 (defect in the code): for a URL that `url.Parse` rejects, here one with a
line break, `Fetch` issues no request at all: the first iteration panics on the
nil request before `s.Client.Do` is reached, where the claim has requests
issued until a 200 response or the third attempt. -/
theorem Fetch_issues_no_request_on_rejected_url :
    deadWorld.urlParse (fullURL "example.com\n") = false
    ∧ (Fetch deadWorld { cancelled := false } "example.com\n").trace = []
    ∧ (Fetch deadWorld { cancelled := false } "example.com\n").outcome
        = Except.error GoPanic.nilPointerDereference :=
  ⟨by decide, rfl, rfl⟩

/-- C6 fails as stated: with the context already cancelled and the first attempt
failed, `Fetch` still sleeps one second, tries again, sleeps two seconds and
tries a third time before it returns the failure result. -/
theorem Fetch_cancelled_context_runs_all_attempts :
    isOK (deadWorld.ClientDo 0 (requestFor { cancelled := true } "https://example.com")) = none
    ∧ (Fetch deadWorld { cancelled := true } "example.com").trace
        = [Event.request 0 (requestFor { cancelled := true } "https://example.com"),
           Event.sleep 1000000000,
           Event.request 1 (requestFor { cancelled := true } "https://example.com"),
           Event.sleep 2000000000,
           Event.request 2 (requestFor { cancelled := true } "https://example.com")]
    ∧ (Fetch deadWorld { cancelled := true } "example.com").outcome
        = Except.ok (failureResult "https://example.com") :=
  ⟨rfl, by decide, rfl⟩

/-- C6 as amended: `Fetch` never looks at the context. Whether or not it is
cancelled, when none of the three attempts obtains a 200 response `Fetch` makes
all three attempts, sleeps one second after the first and two seconds after the
second, and then returns the failure result for the normalised URL. -/
theorem Fetch_retries_whatever_the_context (w : World) (ctx : Context) (url : String)
    (hp : w.urlParse (fullURL url) = true)
    (hf : ∀ i, i < 3 → isOK (w.ClientDo i (requestFor ctx (fullURL url))) = none) :
    (Fetch w ctx url).trace
        = [Event.request 0 (requestFor ctx (fullURL url)), Event.sleep Second,
           Event.request 1 (requestFor ctx (fullURL url)), Event.sleep (2 * Second),
           Event.request 2 (requestFor ctx (fullURL url))]
    ∧ (Fetch w ctx url).outcome = Except.ok (failureResult (fullURL url)) := by
  unfold Fetch
  rw [fetchLoop_retry w ctx _ 2 0 hp (hf 0 (by decide)),
    fetchLoop_retry w ctx _ 1 1 hp (hf 1 (by decide)),
    fetchLoop_retry w ctx _ 0 2 hp (hf 2 (by decide)), fetchLoop_zero]
  simp [backoff, waitTime]

/-- C6 as amended, at a cancelled context on a network where every request fails. -/
theorem Fetch_retries_whatever_the_context_witness :
    (Fetch deadWorld { cancelled := true } "example.com").trace
        = [Event.request 0 (requestFor { cancelled := true } (fullURL "example.com")),
           Event.sleep Second,
           Event.request 1 (requestFor { cancelled := true } (fullURL "example.com")),
           Event.sleep (2 * Second),
           Event.request 2 (requestFor { cancelled := true } (fullURL "example.com"))]
    ∧ (Fetch deadWorld { cancelled := true } "example.com").outcome
        = Except.ok (failureResult (fullURL "example.com")) :=
  Fetch_retries_whatever_the_context deadWorld { cancelled := true } "example.com"
    (by decide) (fun _ _ => rfl)

/-- C7 fails as stated: after two active results with the same URL the counter
is 2 and the map has one entry. -/
theorem processAll_same_url_twice :
    (processAll NewAnalyzer
        [sampleResult "https://example.com" "T", sampleResult "https://example.com" "T"]).TotalCount
      = 2
    ∧ mapLen (processAll NewAnalyzer
        [sampleResult "https://example.com" "T", sampleResult "https://example.com" "T"]).Results
      = 1 :=
  ⟨by decide, by decide⟩

/-- C7 as amended: in the state reached from `NewAnalyzer()` by `Process` calls
in which no two active results have the same URL, `TotalCount` is the number
of entries of the `Results` map. -/
theorem processAll_count_eq_len (rs : List ScrapeResult)
    (h : ((rs.filter (fun r => r.IsActive)).map (fun r => r.URL)).Nodup) :
    (processAll NewAnalyzer rs).TotalCount
      = (mapLen (processAll NewAnalyzer rs).Results : Nat) := by
  rw [processAll_count_from, processAll_len, h.dedup, List.length_map,
    List.countP_eq_length_filter]
  simp [NewAnalyzer]

/-- C7 as amended, on two active results with different URLs and a failure. -/
theorem processAll_count_eq_len_witness :
    ((([sampleResult "https://a.example" "A", failureResult "https://b.example",
          sampleResult "https://c.example" "C"].filter (fun r => r.IsActive)).map
        (fun r => r.URL)).Nodup)
    ∧ (processAll NewAnalyzer
          [sampleResult "https://a.example" "A", failureResult "https://b.example",
            sampleResult "https://c.example" "C"]).TotalCount
        = (mapLen (processAll NewAnalyzer
            [sampleResult "https://a.example" "A", failureResult "https://b.example",
              sampleResult "https://c.example" "C"]).Results : Nat) :=
  ⟨by decide, processAll_count_eq_len _ (by decide)⟩

/-- C8: after the results `rs` are processed in order from `NewAnalyzer()`, the
keys of `Results` are exactly the URLs of the active results of `rs`, each key
occurs once, and each key maps to the `SiteInfo` whose `Title`, `H1`,
`AllHeaders` and `Description` are the `PageTitle`, `H1`, `AllHeaders` and
`Description` of the last active result with that URL; an inactive result
leaves the analyzer as it was, and processing a result a second time leaves
`Results` as it was after the first time. -/
theorem processAll_results_map (rs : List ScrapeResult) :
    (∀ u, u ∈ mapKeys (processAll NewAnalyzer rs).Results
        ↔ ∃ r, r ∈ rs ∧ r.IsActive = true ∧ r.URL = u)
    ∧ (mapKeys (processAll NewAnalyzer rs).Results).Nodup
    ∧ (∀ u, mapGet (processAll NewAnalyzer rs).Results u
        = (rs.reverse.find? (fun r => r.IsActive && r.URL == u)).map
            (fun r => { Title := r.PageTitle, H1 := r.H1, AllHeaders := r.AllHeaders,
                        Description := r.Description }))
    ∧ (∀ (a : Analyzer) (r : ScrapeResult), r.IsActive = false → (Process a r).1 = a)
    ∧ (∀ (a : Analyzer) (r : ScrapeResult),
        (Process (Process a r).1 r).1.Results = (Process a r).1.Results) := by
  refine ⟨processAll_keys rs, processAll_keys_nodup rs, ?_, Process_inactive, ?_⟩
  · intro u
    rw [processAll_lookup]
    rfl
  · intro a r
    cases h : r.IsActive with
    | false => rw [Process_inactive a r h, Process_inactive a r h]
    | true =>
      rw [Process_active a r h, Process_active _ r h]
      exact mapSet_mapSet _ _ _ _

/-- C9: after the results `rs` are processed in order from `NewAnalyzer()`,
`TotalCount` is the number of results of `rs` with `IsActive == true`, and
together with the number of inactive results it makes up the length of `rs`. -/
theorem processAll_totalCount (rs : List ScrapeResult) :
    (processAll NewAnalyzer rs).TotalCount = (rs.countP (fun r => r.IsActive) : Nat)
    ∧ (processAll NewAnalyzer rs).TotalCount + (rs.countP (fun r => !r.IsActive) : Nat)
        = (rs.length : Nat) := by
  have h1 : (processAll NewAnalyzer rs).TotalCount = (rs.countP (fun r => r.IsActive) : Nat) := by
    rw [processAll_count_from]
    simp [NewAnalyzer]
  refine ⟨h1, ?_⟩
  rw [h1]
  have h2 := List.length_eq_countP_add_countP (fun r : ScrapeResult => r.IsActive) rs
  have h3 : rs.countP (fun r => !r.IsActive) = rs.countP (fun a => decide ¬(fun r : ScrapeResult => r.IsActive) a = true) := by
    congr 1
    funext r
    simp
  rw [h3]
  exact_mod_cast h2.symm

end Scraper
